import Mathlib

/-!
Verification of the kernel–capsule interaction core of an embedded OS kernel
(Tock variant): the Grant allocator, the read-only-syscalls driver, the
no-op MPU, the BLE advertising driver's command dispatch, the USB CDC
transmit path, the VirtIO RNG capsule and the deferred-call mechanism.

Each definition is a shallow embedding of the corresponding Rust item.
Machine integers are `Nat` with explicit reductions modulo `2 ^ w` where the
source wraps.  Fallible operations return `Except`; a Rust `panic!`,
`unwrap()` on an error, failed `assert!` or failed `expect()` is modelled as
an `Except.error` carrying a `Panic` reason (or as `Option.none` where noted).
-/

set_option maxRecDepth 2000

/-- The `kernel::ErrorCode` (the closed kernel error enumeration). -/
inductive ErrorCode where
  | FAIL
  | BUSY
  | ALREADY
  | OFF
  | RESERVE
  | INVAL
  | SIZE
  | CANCEL
  | NOMEM
  | NOSUPPORT
  | NODEVICE
  | UNINSTALLED
  | NOACK
  deriving DecidableEq, Repr

/-- The legacy `kernel::ReturnCode` used by the BLE and CDC capsules. -/
inductive ReturnCode where
  | SUCCESS
  | FAIL
  | EBUSY
  | EALREADY
  | EOFF
  | ERESERVE
  | EINVAL
  | ESIZE
  | ECANCEL
  | ENOMEM
  | ENOSUPPORT
  | ENODEVICE
  | EUNINSTALLED
  | ENOACK
  deriving DecidableEq, Repr

/-- Grant-enter failure causes.  Modelled from the spec: the Grant allocator
(`kernel` crate `grant.rs` / `procs.rs`) is not among the provided sources;
the spec lists exactly these failure modes for `enter`: the process no longer
exists, the process has insufficient free memory for the grant, or the grant
is already entered (re-entrancy attempt). -/
inductive GrantError where
  | NoSuchApp
  | OutOfMemory
  | AlreadyInUse
  deriving DecidableEq, Repr

/-- Modelled from the spec: error-code surfacing for grant failures —
resource exhaustion is surfaced as out-of-memory, grant re-entry as busy,
a vanished process as generic failure. -/
def GrantError.toErrorCode : GrantError → ErrorCode
  | .NoSuchApp => .FAIL
  | .OutOfMemory => .NOMEM
  | .AlreadyInUse => .BUSY

/-- Modelled from the spec: the same surfacing into the legacy return codes. -/
def GrantError.toReturnCode : GrantError → ReturnCode
  | .NoSuchApp => .FAIL
  | .OutOfMemory => .ENOMEM
  | .AlreadyInUse => .EBUSY

/-- Modelled from the spec: the per-process, per-capsule grant slot.
`alive` — the process still exists; `memAvailable` — the process has enough
free memory to materialize the grant on first use; `allocated` — the lazily
allocated capsule-private state; `entered` — an `enter` closure for this
(process, capsule) pair is currently executing. -/
structure GrantState (α : Type) where
  alive : Bool
  memAvailable : Bool
  allocated : Option α
  entered : Bool
  deriving DecidableEq, Repr

/-- The grant state handed to an `enter` closure: the grant is marked
entered and the capsule state is materialized (from the default value on
first use). -/
def Grant.enterInner {α : Type} (s : GrantState α) (d : α) : GrantState α :=
  { s with entered := true, allocated := some (s.allocated.getD d) }

/-- Modelled from the spec: `Grant::enter(process_id, closure)`.  Fails with
an error value (never panicking) when the process no longer exists, when the
grant is already entered for this process, or when first-use allocation
fails for lack of process memory; otherwise runs the closure on the entered
state and clears the entered mark afterwards. -/
def Grant.enter {α β : Type} (s : GrantState α) (d : α)
    (f : GrantState α → GrantState α × β) :
    Except GrantError (GrantState α × β) :=
  if s.alive = false then .error .NoSuchApp
  else if s.entered then .error .AlreadyInUse
  else if s.allocated.isNone && s.memAvailable = false then .error .OutOfMemory
  else
    let r := f (Grant.enterInner s d)
    .ok ({ r.1 with entered := false }, r.2)

/-- Convenience form of `Grant.enter` whose closure sees only the
capsule-private state, as capsule code does. -/
def Grant.enterApp {α β : Type} (s : GrantState α) (d : α) (f : α → α × β) :
    Except GrantError (GrantState α × β) :=
  Grant.enter s d (fun st =>
    let r := f (st.allocated.getD d)
    ({ st with allocated := some r.1 }, r.2))

/-! ## The read-only system calls driver (`kernel/src/ros.rs`) -/

namespace ros

/-- A shared process buffer, modelled by its byte contents.  The default
(`SharedProcessBuffer::default()`) is the empty buffer. -/
def SharedProcessBuffer : Type := List Nat

instance : DecidableEq SharedProcessBuffer := by
  unfold SharedProcessBuffer
  infer_instance

instance : Inhabited SharedProcessBuffer := ⟨([] : List Nat)⟩

/-- The `ros::App`: the grant-held state of the driver, one shared region. -/
structure App where
  mem_region : SharedProcessBuffer
  deriving DecidableEq

instance : Inhabited App := ⟨⟨([] : List Nat)⟩⟩

/-- Little-endian bytes of a `u32` (`u32::to_le_bytes`). -/
def leBytes4 (x : Nat) : List Nat :=
  [x % 256, x / 256 % 256, x / 65536 % 256, x / 16777216 % 256]

/-- Little-endian bytes of a `u64` (`u64::to_le_bytes`). -/
def leBytes8 (x : Nat) : List Nat :=
  leBytes4 (x % 4294967296) ++ leBytes4 (x / 4294967296 % 4294967296)

/-- The `buf[start..start+bytes.length].copy_from_slice(bytes)` on a byte list. -/
def writeBytes (buf : List Nat) (start : Nat) (bytes : List Nat) : List Nat :=
  buf.take start ++ bytes ++ buf.drop (start + bytes.length)

/-- The `count` cell of `ROSDriver` (its only non-grant mutable state; the
timer is external and its current ticks are passed in explicitly). -/
structure ROSDriver where
  count : Nat
  deriving DecidableEq, Repr

/-- The closure body of `ROSDriver::update_values`: write the count,
pending-task count and time into the shared region, guarded by its length. -/
def updateBuffer (count pending_tasks now : Nat) (buf : List Nat) : List Nat :=
  let buf1 := if 4 ≤ buf.length then writeBytes buf 0 (leBytes4 count) else buf
  let buf2 := if 8 ≤ buf1.length then
      writeBytes buf1 4 (leBytes4 (pending_tasks % 4294967296)) else buf1
  if 16 ≤ buf2.length then
      writeBytes buf2 8 (leBytes8 (now % 18446744073709551616)) else buf2

/-- The `ROSDriver::update_values`.  The source calls
`self.apps.enter(appid, ...).unwrap()`: a failed grant enter panics, which is
modelled as `none`.  On success the shared region is rewritten and the count
advances with `u32` wrap-around. -/
def ROSDriver.update_values (d : ROSDriver) (s : GrantState App)
    (pending_tasks : Nat) (now : Nat) : Option (ROSDriver × GrantState App) :=
  let count := d.count
  match Grant.enterApp s default (fun app =>
      ({ mem_region := updateBuffer count pending_tasks now app.mem_region },
        ())) with
  | .error _ => none
  | .ok (s', _) => some ({ count := (count + 1) % 4294967296 }, s')

/-- The `ROSDriver::allow_shared`: for buffer id 0, enter the grant and
`core::mem::swap` the held region with the provided one, returning the
previously held buffer; grant failures are surfaced as error values. -/
def ROSDriver.allow_shared (s : GrantState App) (which : Nat)
    (slice : SharedProcessBuffer) :
    Except (SharedProcessBuffer × ErrorCode)
      (GrantState App × SharedProcessBuffer) :=
  if which = 0 then
    match Grant.enterApp s default (fun app =>
        (({ mem_region := slice } : App), app.mem_region)) with
    | .ok (s', old) => .ok (s', old)
    | .error e => .error (slice, e.toErrorCode)
  else
    .error (slice, ErrorCode.NOSUPPORT)

end ros

/-! ## The MPU abstraction (`kernel/src/platform/mpu.rs`) -/

namespace mpu

/-- The `mpu::AccessPermission` with its hardware encoding. -/
inductive AccessPermission where
  | NoAccess
  | PrivilegedOnly
  | UnprivilegedReadOnly
  | ReadWrite
  | Reserved
  | PrivilegedOnlyReadOnly
  | ReadOnly
  | ReadOnlyAlais
  deriving DecidableEq, Repr

/-- The `mpu::ExecutePermission`. -/
inductive ExecutePermission where
  | ExecutionPermitted
  | ExecutionNotPermitted
  deriving DecidableEq, Repr

/-- The `mpu::Region`: a hardware region descriptor (two `u32` words). -/
structure Region where
  base_address : Nat
  attributes : Nat
  deriving DecidableEq, Repr

/-- The `Region::empty(region_num)`: region-number word with the VALID bit
(bit 4) set and an all-zero attribute word, i.e. a disabled region that
imposes no restriction of its own. -/
def Region.empty (region_num : Nat) : Region :=
  { base_address := (region_num % 4294967296) ||| (1 <<< 4)
    attributes := 0 }

/-- The `impl MPU for ()`, `enable_mpu`: does nothing to the hardware state. -/
def unitMPU.enable_mpu {σ : Type} (hw : σ) : σ := hw

/-- The `impl MPU for ()`, `create_region`: ignores every argument and always
succeeds with `Region::empty(0)`. -/
def unitMPU.create_region (_region_num _start _len : Nat)
    (_execute : ExecutePermission) (_access : AccessPermission) :
    Option Region :=
  some (Region.empty 0)

/-- The `impl MPU for ()`, `set_mpu`: does nothing to the hardware state. -/
def unitMPU.set_mpu {σ : Type} (hw : σ) (_r : Region) : σ := hw

/-- Modelled from the spec: a hardware `create_region` implementation (none
is among the provided sources) must validate alignment/size constraints —
the trait documents region numbers 0–7 and power-of-two sizes — and return
`None` when the request cannot be represented, rather than install an
incorrect region. -/
def hwMPU.create_region (region_num start len : Nat)
    (execute : ExecutePermission) (access : AccessPermission) :
    Option Region :=
  if region_num ≤ 7 ∧ 32 ≤ len ∧ 2 ^ Nat.log2 len = len ∧ start % len = 0 then
    some { base_address := (start % 4294967296) ||| (region_num % 16)
           attributes :=
             ((Nat.log2 len - 1) <<< 1) ||| 1 |||
               ((match access with
                 | .NoAccess => 0
                 | .PrivilegedOnly => 1
                 | .UnprivilegedReadOnly => 2
                 | .ReadWrite => 3
                 | .Reserved => 4
                 | .PrivilegedOnlyReadOnly => 5
                 | .ReadOnly => 6
                 | .ReadOnlyAlais => 7) <<< 24) |||
               ((match execute with
                 | .ExecutionPermitted => 0
                 | .ExecutionNotPermitted => 1) <<< 28) }
  else
    none

end mpu

/-! ## The BLE advertising driver (`chips/nrf5x/src/ble_advertising_driver.rs`) -/

namespace ble

/-- The `AppBLEState`: the per-app protocol state machine. -/
inductive AppBLEState where
  | NotInitialized
  | Initialized
  | Scanning
  | Advertising
  deriving DecidableEq, Repr

/-- The `BusyState`: whether the radio is held, and by which app. -/
inductive BusyState where
  | Free
  | Busy (appid : Nat)
  deriving DecidableEq, Repr

/-- The BLE advertising channels of `RadioChannel` (defined in the
`ble_advertising_hil` module) that the command path uses. -/
inductive RadioChannel where
  | AdvertisingChannel37
  | AdvertisingChannel38
  | AdvertisingChannel39
  deriving DecidableEq, Repr

/-- The `Expiration`: an app alarm is disabled or set at an absolute tick. -/
inductive Expiration where
  | Disabled
  | Abs (tick : Nat)
  deriving DecidableEq, Repr

/-- The `AlarmData`. -/
structure AlarmData where
  t0 : Nat
  expiration : Expiration
  deriving DecidableEq, Repr

/-- The fields of the grant-held `App` struct that the command dispatch
path reads or writes (buffers, callbacks and link-layer payload state are
untouched by commands 0 and 3 and are omitted).  `appid` is the grant
owner's process identity (`app.appid()`). -/
structure App where
  appid : Nat
  process_status : Option AppBLEState
  advertisement_interval_ms : Nat
  alarm_data : AlarmData
  tx_power : Nat
  channel : Option RadioChannel
  random_nonce : Nat
  deriving DecidableEq, Repr

/-- The `App::default()` restricted to the modelled fields. -/
def App.default (appid : Nat) : App :=
  { appid := appid
    process_status := some .NotInitialized
    advertisement_interval_ms := 200
    alarm_data := { t0 := 0, expiration := .Disabled }
    tx_power := 0
    channel := none
    random_nonce := 0xdeadbeef }

/-- The `App::random_nonce`: one xorshift32 step on the stored nonce, with
`u32` wrap-around, returning the updated state and the fresh nonce. -/
def App.random_nonce_step (app : App) : App × Nat :=
  let n0 := app.random_nonce % 4294967296
  let n1 := (n0 ^^^ (n0 <<< 13)) % 4294967296
  let n2 := (n1 ^^^ (n1 >>> 17)) % 4294967296
  let n3 := (n2 ^^^ (n2 <<< 5)) % 4294967296
  ({ app with random_nonce := n3 }, n3)

/-- The `App::set_next_alarm::<F>(now)`: `freq` is `F::frequency()`. -/
def App.set_next_alarm (app : App) (freq now : Nat) : App :=
  let app := { app with alarm_data.t0 := now }
  let r := App.random_nonce_step app
  let nonce := r.2 % 10
  let period_ms := (app.advertisement_interval_ms + nonce) * freq / 1000 %
    4294967296
  { r.1 with alarm_data.expiration := .Abs ((now + period_ms) % 4294967296) }

/-- The radio-facing state machine of the driver struct (`BLEState`). -/
inductive BLEState where
  | Scanning
  | Advertising
  | Initiating
  | Connection
  deriving DecidableEq, Repr

/-- The `BLE` driver struct, restricted to the state the command path
touches: the busy cell, the (single-process model of the) grant, the radio
state cell and the hardware alarm target set by `alarm.set_alarm`. -/
structure BLE where
  busy : BusyState
  app : GrantState App
  ble_state : BLEState
  hwAlarm : Option Nat
  deriving DecidableEq, Repr

/-- The `BLE::reset_active_alarm`: iterate all apps whose grant can be entered
(the source comment notes an open grant is not iterated over), pick the
soonest expiration relative to `now`, and install it in the hardware alarm.
With a single app the minimum is that app's expiration, if any. -/
def BLE.reset_active_alarm (b : BLE) (now : Nat) : BLE :=
  if b.app.entered then b
  else
    match b.app.allocated with
    | none => b
    | some app =>
      match app.alarm_data.expiration with
      | .Disabled => b
      | .Abs exp =>
        let t_dist := (exp + 4294967296 - now % 4294967296) % 4294967296
        if t_dist ≠ 4294967295 ∧ exp ≠ 4294967295 then
          { b with hwAlarm := some exp }
        else b

/-- The `BLE::command`, arm `command_num == 0` (start periodic advertisements):
enter the caller's grant; only an `Initialized` app may start advertising —
it moves to `Advertising`, is placed on channel 37, reseeds its nonce from
the alarm and schedules its next advertisement; any other app state is
answered with `EBUSY` and nothing changes.  `reset_active_alarm` runs while
the grant is still entered (hoisted here to the still-entered state, which
it skips, exactly as the source comment on it warns). -/
def BLE.command0 (b : BLE) (now freq : Nat) (appid : Nat) : BLE × ReturnCode :=
  match Grant.enterApp b.app (App.default appid) (fun app =>
      if app.process_status = some AppBLEState.Initialized then
        let app := { app with
          process_status := some AppBLEState.Advertising
          channel := some RadioChannel.AdvertisingChannel37
          random_nonce := now % 4294967296 }
        let app := App.set_next_alarm app freq now
        (app, (ReturnCode.SUCCESS, true))
      else
        (app, (ReturnCode.EBUSY, false))) with
  | .error e => (b, GrantError.toReturnCode e)
  | .ok (s', r) =>
    let bDuring := { b with app := { s' with entered := true } }
    let bReset := if r.2 then BLE.reset_active_alarm bDuring now else bDuring
    ({ bReset with app := { bReset.app with entered := false } }, r.1)

/-- The `BLE::command`, arm `command_num == 3` (configure advertisement
interval): if the radio is busy with this very app the call fails `EBUSY`;
otherwise the app's interval is set to
`cmp::max(20, cmp::min(10240, 280))` — the requested `data` value is unused
(the line using it is commented out in the source) — and the call
succeeds. -/
def BLE.command3 (b : BLE) (_data : Nat) (appid : Nat) : BLE × ReturnCode :=
  match Grant.enterApp b.app (App.default appid) (fun app =>
      match b.busy with
      | BusyState.Busy busy_id =>
        if app.appid = busy_id then (app, ReturnCode.EBUSY)
        else
          ({ app with advertisement_interval_ms := max 20 (min 10240 280) },
            ReturnCode.SUCCESS)
      | BusyState.Free =>
        ({ app with advertisement_interval_ms := max 20 (min 10240 280) },
          ReturnCode.SUCCESS)) with
  | .error e => (b, GrantError.toReturnCode e)
  | .ok (s', ret) => ({ b with app := s' }, ret)

end ble

/-! ## The USB CDC-ACM capsule (`capsules/src/usb/cdc.rs`), transmit path -/

namespace cdc

/-- The fields of `Cdc` that `uart::Transmit::transmit_buffer` touches.
`endpointResumed` records the external `endpoint_resume_in` signal to the
USB controller. -/
structure Cdc where
  tx_buffer : Option (List Nat)
  tx_remaining : Nat
  tx_len : Nat
  tx_offset : Nat
  endpointResumed : Bool
  deriving DecidableEq, Repr

/-- The `Cdc::transmit_buffer`: a transmission already being handled is refused
with `EBUSY` and the caller's buffer handed straight back; an over-long
request is refused with `ESIZE`; otherwise the TX state machine is armed,
the buffer is taken, and the IN endpoint is resumed. -/
def Cdc.transmit_buffer (c : Cdc) (tx_buffer : List Nat) (tx_len : Nat) :
    Cdc × ReturnCode × Option (List Nat) :=
  if c.tx_buffer.isSome then
    (c, ReturnCode.EBUSY, some tx_buffer)
  else if tx_len > tx_buffer.length then
    (c, ReturnCode.ESIZE, some tx_buffer)
  else
    ({ c with
        tx_remaining := tx_len
        tx_len := tx_len
        tx_offset := 0
        tx_buffer := some tx_buffer
        endpointResumed := true },
      ReturnCode.SUCCESS, none)

end cdc

/-! ## The VirtIO RNG capsule (`capsules/src/virtio/devices/virtio_rng.rs`) -/

namespace virtio_rng

/-- Panic reasons a VirtIO RNG code path can hit, one per `panic!`,
`assert!` or `expect` in the source. -/
inductive Panic where
  /-- The `panic!("VirtIO RNG: deferred call callback with empty queue")` in
  `DynamicDeferredCallClient::call`. -/
  | emptyQueueDeferredCall
  /-- The `assert!(self.buffer_capacity.get() >= buf.len())` in
  `buffer_chain_callback`. -/
  | capacityAssert
  /-- The `self.provide_buffer(buf).expect("Buffer reinsertion failed")` in
  `buffer_chain_callback`. -/
  | reinsertExpect
  /-- The `panic!("Unexpected error {:?}", e)` in `provide_buffer`. -/
  | unexpectedError
  deriving DecidableEq, Repr

/-- Modelled from the spec: the split virtqueue
(`capsules/src/virtio/queues/split_queue.rs` is not among the provided
sources).  `freeDescriptors` — descriptor-table slots still free;
`availChains` — buffers made available to the device;
`usedChains` — `(buffer, bytes_used)` chains the device has returned;
`usedCallbacksEnabled` — whether used-buffer interrupts reach the client. -/
structure SplitVirtQueue where
  freeDescriptors : Nat
  availChains : List (List Nat)
  usedChains : List (List Nat × Nat)
  usedCallbacksEnabled : Bool
  deriving DecidableEq, Repr

/-- Modelled from the spec: `SplitVirtQueue::provide_buffer_chain` inserts
a chain whole or fails with `NOMEM` when no descriptor is free — the RNG
source relies on the queue never writing partial buffer chains. -/
def SplitVirtQueue.provide_buffer_chain (vq : SplitVirtQueue)
    (buf : List Nat) : Except ErrorCode SplitVirtQueue :=
  if vq.freeDescriptors = 0 then .error .NOMEM
  else
    .ok { vq with
      freeDescriptors := vq.freeDescriptors - 1
      availChains := vq.availChains ++ [buf] }

/-- Modelled from the spec: `SplitVirtQueue::pop_used_descriptor_chain`
removes and returns the oldest used chain, freeing its descriptor. -/
def SplitVirtQueue.pop_used_descriptor_chain (vq : SplitVirtQueue) :
    Option ((List Nat × Nat) × SplitVirtQueue) :=
  match vq.usedChains with
  | [] => none
  | c :: rest =>
    some (c, { vq with usedChains := rest
                       freeDescriptors := vq.freeDescriptors + 1 })

/-- The `SplitVirtQueue::used_descriptor_chains_count`. -/
def SplitVirtQueue.used_descriptor_chains_count (vq : SplitVirtQueue) : Nat :=
  vq.usedChains.length

/-- The `hil::rng::Continue`. -/
inductive RngCont where
  | More
  | Done
  deriving DecidableEq, Repr

/-- The client's `randomness_available` callback, abstracted as the choice
it returns when fed the `u32` word iterator. -/
def RngClient : Type := List Nat → RngCont

/-- The cells of `VirtIORng` (the virtqueue reference is inlined as state;
`deferredCallSet` records the external `deferred_caller.set(handle)`
effect). -/
structure VirtIORng where
  virtqueue : SplitVirtQueue
  buffer_capacity : Nat
  callback_pending : Bool
  deferred_call_handle : Option Nat
  clientSet : Bool
  deferredCallSet : Bool
  deriving DecidableEq, Repr

/-- The `VirtIORng::provide_buffer`: a buffer under 4 bytes is refused with
`INVAL` (randomness is delivered in `u32` words); a full virtqueue hands
the buffer back with `NOMEM`; any other queue error panics; on success the
buffer capacity grows by the buffer length and the new capacity is
returned. -/
def VirtIORng.provide_buffer (s : VirtIORng) (buf : List Nat) :
    Except Panic (VirtIORng × Except (List Nat × ErrorCode) Nat) :=
  let len := buf.length
  if len < 4 then .ok (s, .error (buf, ErrorCode.INVAL))
  else
    match SplitVirtQueue.provide_buffer_chain s.virtqueue buf with
    | .error ErrorCode.NOMEM => .ok (s, .error (buf, ErrorCode.NOMEM))
    | .error _ => .error Panic.unexpectedError
    | .ok vq' =>
      let cap := s.buffer_capacity + len
      .ok ({ s with virtqueue := vq', buffer_capacity := cap }, .ok cap)

/-- The `Rng::get` for `VirtIORng`: refuse when under-provisioned or without a
client; report `OFF` when a callback is already pending; with no used
buffer ready, arm the pending flag and the queue interrupts and report
`OFF`; otherwise arm the pending flag and schedule the deferred call. -/
def VirtIORng.get (s : VirtIORng) : VirtIORng × Except ErrorCode Unit :=
  if s.buffer_capacity < 4 then (s, .error ErrorCode.FAIL)
  else if s.clientSet = false then (s, .error ErrorCode.FAIL)
  else if s.callback_pending then (s, .error ErrorCode.OFF)
  else if SplitVirtQueue.used_descriptor_chains_count s.virtqueue < 1 then
    ({ s with callback_pending := true
              virtqueue := { s.virtqueue with usedCallbacksEnabled := true } },
      .error ErrorCode.OFF)
  else if s.deferred_call_handle.isNone then (s, .error ErrorCode.FAIL)
  else
    ({ s with callback_pending := true, deferredCallSet := true },
      .ok ())

/-- The `Rng::cancel` for `VirtIORng`: clear the pending flag (checked before
every callback) and unsubscribe from virtqueue callbacks; always `Ok`. -/
def VirtIORng.cancel (s : VirtIORng) : VirtIORng × Except ErrorCode Unit :=
  ({ s with callback_pending := false
            virtqueue := { s.virtqueue with usedCallbacksEnabled := false } },
    .ok ())

/-- The full `u32` little-endian words of a byte list
(`chunks(4).filter_map(...)`: short trailing chunks are dropped). -/
def u32ChunksLE : List Nat → List Nat
  | b0 :: b1 :: b2 :: b3 :: rest =>
    (b0 % 256 + b1 % 256 * 256 + b2 % 256 * 65536 + b3 % 256 * 16777216) ::
      u32ChunksLE rest
  | _ => []

/-- The `VirtIORng::buffer_chain_callback`: disable further used-callbacks,
take the single buffer of the chain, check the capacity invariant, deliver
the randomness words to the client if a callback is pending (clearing the
flag first), re-issue `get` if the client wants more, and reinsert the
buffer into the queue, panicking if reinsertion fails. -/
def VirtIORng.buffer_chain_callback (s : VirtIORng) (cl : RngClient)
    (buf : List Nat) (bytes_used : Nat) : Except Panic VirtIORng :=
  let s :=
    { s with virtqueue := { s.virtqueue with usedCallbacksEnabled := false } }
  if s.buffer_capacity < buf.length then .error Panic.capacityAssert
  else
    let step : VirtIORng × RngCont :=
      if s.callback_pending then
        let s := { s with callback_pending := false }
        let words := u32ChunksLE (buf.take bytes_used)
        (s, if s.clientSet then cl words else RngCont.Done)
      else (s, RngCont.Done)
    let s2 := match step.2 with
      | RngCont.More => (VirtIORng.get step.1).1
      | RngCont.Done => step.1
    match VirtIORng.provide_buffer s2 buf with
    | .ok (s3, .ok _) => .ok s3
    | .ok (_, .error _) => .error Panic.reinsertExpect
    | .error p => .error p

/-- The `DynamicDeferredCallClient::call` for `VirtIORng`: pop a used
descriptor chain and process it; an empty queue here is an impossible race
by construction and panics. -/
def VirtIORng.call (s : VirtIORng) (cl : RngClient) : Except Panic VirtIORng :=
  match SplitVirtQueue.pop_used_descriptor_chain s.virtqueue with
  | some (c, vq') =>
    VirtIORng.buffer_chain_callback { s with virtqueue := vq' } cl c.1 c.2
  | none => .error Panic.emptyQueueDeferredCall

end virtio_rng

/-! ## The deferred-call mechanism

Modelled from the spec: the dynamic deferred-call registry
(`kernel/src/common/dynamic_deferred_call.rs` is not among the provided
sources; only clients such as the VirtIO RNG are).  The registry is a
fixed set of slots `0, …, n-1`, each holding a pending flag and a client.
`set(handle)` marks a slot pending from any context; the kernel's idle
loop scans the slots and, for each pending one, clears the flag *before*
invoking the client's `call`, so a client may re-arm itself from inside
its own callback.  A client is abstracted as a function from its private
state to its new private state together with the list of handles it passes
to `set` during the call. -/

namespace deferred

/-- Pending flags of the registry, one per slot. -/
def Flags : Type := Nat → Bool

/-- The `set(handle)` / clearing a slot: update one pending flag. -/
def setFlag (p : Flags) (i : Nat) (b : Bool) : Flags :=
  fun j => if j = i then b else p j

/-- Apply a client's `set` requests: every listed handle becomes pending. -/
def setMany (p : Flags) (l : List Nat) : Flags :=
  l.foldl (fun q j => setFlag q j true) p

/-- A registry of clients over private state `σ`: slot `i`'s `call` maps
the state to a new state and the handles it sets while running. -/
def Clients (σ : Type) : Type := Nat → σ → σ × List Nat

/-- One scan pass over the listed slots: a pending slot is cleared first,
then its client's `call` runs and its `set` requests are applied; the log
records each invocation in order. -/
def scanGo {σ : Type} (clients : Clients σ) :
    List Nat → σ → Flags → List Nat → σ × Flags × List Nat
  | [], s, p, log => (s, p, log)
  | i :: rest, s, p, log =>
    if p i then
      scanGo clients rest (clients i s).1
        (setMany (setFlag p i false) (clients i s).2) (log ++ [i])
    else
      scanGo clients rest s p log

/-- The kernel's scan pass over an `n`-slot registry. -/
def scanPass {σ : Type} (clients : Clients σ) (n : Nat) (s : σ) (p : Flags) :
    σ × Flags × List Nat :=
  scanGo clients (List.range n) s p []

theorem setMany_true {q : Flags} {l : List Nat} {j : Nat} (h : q j = true) :
    setMany q l j = true := by
  induction l generalizing q with
  | nil => simpa [setMany] using h
  | cons a l ih =>
    have h' : setFlag q a true j = true := by
      unfold setFlag
      split <;> simp [h]
    simpa [setMany, List.foldl] using ih h'

theorem setMany_mem {q : Flags} {l : List Nat} {j : Nat} (h : j ∈ l) :
    setMany q l j = true := by
  induction l generalizing q with
  | nil => cases h
  | cons a l ih =>
    rcases List.mem_cons.mp h with h1 | h2
    · subst h1
      have h' : setFlag q j true j = true := by simp [setFlag]
      simpa [setMany, List.foldl] using setMany_true h'
    · simpa [setMany, List.foldl] using ih h2

theorem scanGo_log_append {σ : Type} (clients : Clients σ) (idxs : List Nat)
    (s : σ) (p : Flags) (log : List Nat) :
    (scanGo clients idxs s p log).2.2 =
      log ++ (scanGo clients idxs s p []).2.2 := by
  induction idxs generalizing s p log with
  | nil => simp [scanGo]
  | cons i rest ih =>
    by_cases h : p i
    · simp only [scanGo, h, if_true]
      rw [ih _ _ (log ++ [i]), ih _ _ ([] ++ [i])]
      simp
    · simp only [scanGo, h, if_false]
      exact ih _ _ log

theorem scanGo_count_le {σ : Type} (clients : Clients σ) (idxs : List Nat)
    (i : Nat) (s : σ) (p : Flags) :
    ((scanGo clients idxs s p []).2.2).count i ≤ idxs.count i := by
  induction idxs generalizing s p with
  | nil => simp [scanGo]
  | cons j rest ih =>
    by_cases h : p j
    · simp only [scanGo, h, if_true]
      rw [scanGo_log_append]
      have hle := ih (clients j s).1
        (setMany (setFlag p j false) (clients j s).2)
      by_cases hji : j = i
      · subst hji
        simp only [List.count_append, List.count_cons]
        simp
        omega
      · simp only [List.count_append, List.count_cons]
        simp [hji]
        omega
    · simp only [scanGo, h, if_false]
      have hle := ih s p
      by_cases hji : j = i
      · subst hji
        simp [List.count_cons]
        omega
      · simp [List.count_cons, hji]
        omega

theorem scanGo_flag_preserved {σ : Type} (clients : Clients σ)
    (idxs : List Nat) (i : Nat) (s : σ) (p : Flags) (log : List Nat)
    (hni : i ∉ idxs) (hp : p i = true) :
    (scanGo clients idxs s p log).2.1 i = true := by
  induction idxs generalizing s p log with
  | nil => simpa [scanGo]
  | cons j rest ih =>
    have hji : i ≠ j := fun h => hni (h ▸ List.mem_cons_self j rest)
    have hrest : i ∉ rest := fun h => hni (List.mem_cons_of_mem j h)
    by_cases h : p j
    · simp only [scanGo, h, if_true]
      refine ih _ _ _ hrest ?_
      refine setMany_true ?_
      simpa [setFlag, hji] using hp
    · simp only [scanGo, h, if_false]
      exact ih _ _ _ hrest hp

theorem scanGo_fire_once {σ : Type} (clients : Clients σ) (idxs : List Nat)
    (i : Nat) (s : σ) (p : Flags) (hc : idxs.count i = 1) (hp : p i = true) :
    ((scanGo clients idxs s p []).2.2).count i = 1 := by
  induction idxs generalizing s p with
  | nil => simp at hc
  | cons j rest ih =>
    by_cases hji : j = i
    · subst hji
      have hrest : rest.count j = 0 := by
        simpa [List.count_cons] using hc
      simp only [scanGo, hp, if_true]
      rw [scanGo_log_append]
      have hle := scanGo_count_le clients rest j (clients j s).1
        (setMany (setFlag p j false) (clients j s).2)
      simp only [hrest, Nat.le_zero] at hle
      simp [List.count_append, List.count_cons, hle]
    · have hrest : rest.count i = 1 := by
        simpa [List.count_cons, hji] using hc
      by_cases h : p j
      · simp only [scanGo, h, if_true]
        rw [scanGo_log_append]
        have hflag : setMany (setFlag p j false) (clients j s).2 i = true ∨
            setMany (setFlag p j false) (clients j s).2 i = false := by
          cases setMany (setFlag p j false) (clients j s).2 i <;> simp
        rcases hflag with hf | hf
        · have := ih (clients j s).1 _ hrest hf
          simpa [List.count_append, List.count_cons, hji] using this
        · -- clients can only set flags, never clear them, so a pending
          -- flag of an unvisited slot cannot have been cleared
          have hij : i ≠ j := Ne.symm hji
          have : setMany (setFlag p j false) (clients j s).2 i = true := by
            refine setMany_true ?_
            simpa [setFlag, hij] using hp
          rw [this] at hf
          cases hf
      · simp only [scanGo, h, if_false]
        exact ih s p hrest hp

theorem scanGo_rearm_flag {σ : Type} (clients : Clients σ) (idxs : List Nat)
    (i : Nat) (s : σ) (p : Flags) (log : List Nat)
    (hre : ∀ t, i ∈ (clients i t).2) (hc : idxs.count i = 1)
    (hp : p i = true) :
    (scanGo clients idxs s p log).2.1 i = true := by
  induction idxs generalizing s p log with
  | nil => simp at hc
  | cons j rest ih =>
    by_cases hji : j = i
    · subst hji
      have hrest : rest.count j = 0 := by
        simpa [List.count_cons] using hc
      have hni : j ∉ rest := by
        simpa [List.count_eq_zero] using hrest
      simp only [scanGo, hp, if_true]
      exact scanGo_flag_preserved clients rest j _ _ _ hni
        (setMany_mem (hre s))
    · have hrest : rest.count i = 1 := by
        simpa [List.count_cons, hji] using hc
      have hij : i ≠ j := Ne.symm hji
      by_cases h : p j
      · simp only [scanGo, h, if_true]
        refine ih _ _ _ hrest ?_
        refine setMany_true ?_
        simpa [setFlag, hij] using hp
      · simp only [scanGo, h, if_false]
        exact ih _ _ _ hrest hp

end deferred

/-! ## Claim theorems -/

/-- C1: for every process and capsule, the grant state handed to an active
`enter` closure is marked entered, and an `enter` call made on that state —
i.e. while an `enter` for the same (process, capsule) pair is active — fails
with the contention error value `AlreadyInUse` (surfaced as busy), rather
than deadlocking, panicking, or producing a second reference to the same
per-process grant state. -/
theorem grant_enter_is_exclusive {α β : Type} (s : GrantState α) (d d' : α)
    (f' : GrantState α → GrantState α × β) (halive : s.alive = true) :
    (Grant.enterInner s d).entered = true ∧
      Grant.enter (Grant.enterInner s d) d' f' =
        .error GrantError.AlreadyInUse ∧
      GrantError.toErrorCode GrantError.AlreadyInUse = ErrorCode.BUSY := by
  refine ⟨rfl, ?_, rfl⟩
  simp [Grant.enter, Grant.enterInner, halive]

theorem grant_enter_is_exclusive_witness :
    (Grant.enterInner ⟨true, true, (none : Option Nat), false⟩ 0).entered =
        true ∧
      Grant.enter (Grant.enterInner ⟨true, true, (none : Option Nat), false⟩ 0)
          0 (fun st => (st, 7)) = .error GrantError.AlreadyInUse ∧
      GrantError.toErrorCode GrantError.AlreadyInUse = ErrorCode.BUSY :=
  grant_enter_is_exclusive ⟨true, true, none, false⟩ 0 0 (fun st => (st, 7))
    rfl

/-- C2: `ROSDriver::allow_shared` for buffer id 0 is an atomic exchange —
it stores the provided buffer as the grant-held buffer and returns `Ok`
carrying exactly the previously held buffer; calling it twice in succession
returns the first-provided buffer intact from the second call. -/
theorem ros_allow_shared_exchanges (s : GrantState ros.App)
    (b1 b2 : ros.SharedProcessBuffer) (halive : s.alive = true)
    (hent : s.entered = false)
    (hmem : s.allocated.isSome = true ∨ s.memAvailable = true) :
    ros.ROSDriver.allow_shared s 0 b1 =
        .ok ({ s with allocated := some ⟨b1⟩, entered := false },
          (s.allocated.getD default).mem_region) ∧
      ros.ROSDriver.allow_shared
          { s with allocated := some ⟨b1⟩, entered := false } 0 b2 =
        .ok ({ s with allocated := some ⟨b2⟩, entered := false }, b1) := by
  constructor
  · unfold ros.ROSDriver.allow_shared Grant.enterApp Grant.enter
      Grant.enterInner
    rcases hmem with hm | hm
    · rcases s with ⟨al, ma, alo, en⟩
      cases alo with
      | none => simp at hm
      | some a => simp_all
    · simp [halive, hent, hm]
  · unfold ros.ROSDriver.allow_shared Grant.enterApp Grant.enter
      Grant.enterInner
    simp [halive]

theorem ros_allow_shared_exchanges_witness :
    ros.ROSDriver.allow_shared
          ⟨true, true, some ⟨[9, 9]⟩, false⟩ 0 [1, 2, 3] =
        .ok (⟨true, true, some ⟨[1, 2, 3]⟩, false⟩, [9, 9]) ∧
      ros.ROSDriver.allow_shared
          ⟨true, true, some ⟨[1, 2, 3]⟩, false⟩ 0 [4, 5] =
        .ok (⟨true, true, some ⟨[4, 5]⟩, false⟩, [1, 2, 3]) :=
  ros_allow_shared_exchanges ⟨true, true, some ⟨[9, 9]⟩, false⟩ [1, 2, 3]
    [4, 5] rfl rfl (Or.inl rfl)

/-- C5 counterexample: `ROSDriver::update_values` does *not* terminate
without panicking for every process id — for a process that no longer
exists the grant enter fails and the source's `.unwrap()` panics (modelled
as `none`), at the concrete input below. -/
theorem ros_update_values_panics_on_dead_process :
    ros.ROSDriver.update_values ⟨0⟩ ⟨false, true, none, false⟩ 0 0 = none :=
  rfl

/-- C5 (amended): grant-enter failures in `ROSDriver::allow_shared` are
surfaced to the caller as error values (never a panic), but
`ROSDriver::update_values` unwraps its grant enter: it panics whenever the
enter fails — in particular for a process id that no longer exists — and
terminates without panicking exactly when the grant enter succeeds. -/
theorem ros_update_values_panic_boundary (d : ros.ROSDriver)
    (s : GrantState ros.App) (pt now : Nat) (b : ros.SharedProcessBuffer) :
    (s.alive = false →
      ros.ROSDriver.allow_shared s 0 b = .error (b, ErrorCode.FAIL) ∧
        ros.ROSDriver.update_values d s pt now = none) ∧
      (s.alive = true → s.entered = false →
        (s.allocated.isSome = true ∨ s.memAvailable = true) →
        (ros.ROSDriver.update_values d s pt now).isSome = true) := by
  constructor
  · intro hdead
    constructor
    · unfold ros.ROSDriver.allow_shared Grant.enterApp Grant.enter
      simp [hdead, GrantError.toErrorCode]
    · unfold ros.ROSDriver.update_values Grant.enterApp Grant.enter
      simp [hdead]
  · intro halive hent hmem
    unfold ros.ROSDriver.update_values Grant.enterApp Grant.enter
      Grant.enterInner
    rcases hmem with hm | hm
    · rcases s with ⟨al, ma, alo, en⟩
      cases alo with
      | none => simp at hm
      | some a => simp_all
    · simp [halive, hent, hm]

theorem ros_update_values_panic_boundary_witness :
    (ros.ROSDriver.allow_shared ⟨false, true, none, false⟩ 0 [3] =
        .error ([3], ErrorCode.FAIL) ∧
      ros.ROSDriver.update_values ⟨5⟩ ⟨false, true, none, false⟩ 1 2 =
        none) ∧
      (ros.ROSDriver.update_values ⟨5⟩ ⟨true, true, none, false⟩ 1 2).isSome =
        true :=
  ⟨(ros_update_values_panic_boundary ⟨5⟩ ⟨false, true, none, false⟩ 1 2
      [3]).1 rfl,
    (ros_update_values_panic_boundary ⟨5⟩ ⟨true, true, none, false⟩ 1 2
      [3]).2 rfl rfl (Or.inr rfl)⟩

/-- C6: the no-op MPU (the `MPU` impl for the unit type) always succeeds:
`create_region` returns `Some` for every argument tuple — always the empty
(attribute-zero, hence non-restricting) region — and `enable_mpu` /
`set_mpu` leave the hardware untouched, so the default unrestricted map
stays in force; the spec-modelled hardware `create_region` instead returns
`None` for sizes/alignments the hardware cannot represent. -/
theorem noop_mpu_always_succeeds (rn st len : Nat)
    (ex : mpu.ExecutePermission) (ap : mpu.AccessPermission)
    {σ : Type} (hw : σ) (r : mpu.Region) (rn' st' len' : Nat)
    (ex' : mpu.ExecutePermission) (ap' : mpu.AccessPermission)
    (hbad : ¬(rn' ≤ 7 ∧ 32 ≤ len' ∧ 2 ^ Nat.log2 len' = len' ∧
      st' % len' = 0)) :
    mpu.unitMPU.create_region rn st len ex ap = some (mpu.Region.empty 0) ∧
      (mpu.Region.empty 0).attributes = 0 ∧
      mpu.unitMPU.enable_mpu hw = hw ∧
      mpu.unitMPU.set_mpu hw r = hw ∧
      mpu.hwMPU.create_region rn' st' len' ex' ap' = none := by
  refine ⟨rfl, rfl, rfl, rfl, ?_⟩
  simp only [mpu.hwMPU.create_region, if_neg hbad]

theorem noop_mpu_always_succeeds_witness :
    mpu.unitMPU.create_region 3 1024 4096
          mpu.ExecutePermission.ExecutionNotPermitted
          mpu.AccessPermission.ReadWrite = some (mpu.Region.empty 0) ∧
      (mpu.Region.empty 0).attributes = 0 ∧
      mpu.unitMPU.enable_mpu (42 : Nat) = 42 ∧
      mpu.unitMPU.set_mpu (42 : Nat) (mpu.Region.empty 0) = 42 ∧
      mpu.hwMPU.create_region 8 1024 64
          mpu.ExecutePermission.ExecutionNotPermitted
          mpu.AccessPermission.ReadWrite = none :=
  noop_mpu_always_succeeds 3 1024 4096 _ _ (42 : Nat) (mpu.Region.empty 0)
    8 1024 64 _ _ (by decide)

/-- C7: `VirtIORng::cancel` is idempotent and always safe — it returns `Ok`
in every driver state; cancelling twice in a row is the same call result and
state as cancelling once; with no request outstanding (`callback_pending`
already false) the driver's own cells and the virtqueue's contents are
unchanged, and if in addition the used-callback subscription is already off
(which holds in every state the driver can reach with a clear pending flag)
the whole state is literally unchanged. -/
theorem virtio_rng_cancel_idempotent (s : virtio_rng.VirtIORng) :
    (virtio_rng.VirtIORng.cancel s).2 = .ok () ∧
      virtio_rng.VirtIORng.cancel (virtio_rng.VirtIORng.cancel s).1 =
        virtio_rng.VirtIORng.cancel s ∧
      (s.callback_pending = false →
        (virtio_rng.VirtIORng.cancel s).1.buffer_capacity =
            s.buffer_capacity ∧
          (virtio_rng.VirtIORng.cancel s).1.callback_pending =
            s.callback_pending ∧
          (virtio_rng.VirtIORng.cancel s).1.deferred_call_handle =
            s.deferred_call_handle ∧
          (virtio_rng.VirtIORng.cancel s).1.clientSet = s.clientSet ∧
          (virtio_rng.VirtIORng.cancel s).1.deferredCallSet =
            s.deferredCallSet ∧
          (virtio_rng.VirtIORng.cancel s).1.virtqueue.usedChains =
            s.virtqueue.usedChains ∧
          (virtio_rng.VirtIORng.cancel s).1.virtqueue.availChains =
            s.virtqueue.availChains ∧
          (virtio_rng.VirtIORng.cancel s).1.virtqueue.freeDescriptors =
            s.virtqueue.freeDescriptors) ∧
      (s.callback_pending = false →
        s.virtqueue.usedCallbacksEnabled = false →
        (virtio_rng.VirtIORng.cancel s).1 = s) := by
  refine ⟨rfl, rfl, ?_, ?_⟩
  · intro hp
    exact ⟨rfl, by simp [virtio_rng.VirtIORng.cancel, hp], rfl, rfl, rfl,
      rfl, rfl, rfl⟩
  · intro hp hcb
    rcases s with ⟨⟨fd, av, us, en⟩, cap, cp, h, cl, dc⟩
    simp only at hp hcb
    simp [virtio_rng.VirtIORng.cancel, hp, hcb]

theorem virtio_rng_cancel_idempotent_witness :
    (virtio_rng.VirtIORng.cancel ⟨⟨2, [], [], false⟩, 8, false, some 0,
          true, false⟩).2 = .ok () ∧
      virtio_rng.VirtIORng.cancel
          (virtio_rng.VirtIORng.cancel ⟨⟨2, [], [], false⟩, 8, false, some 0,
            true, false⟩).1 =
        virtio_rng.VirtIORng.cancel ⟨⟨2, [], [], false⟩, 8, false, some 0,
          true, false⟩ ∧
      (virtio_rng.VirtIORng.cancel ⟨⟨2, [], [], false⟩, 8, false, some 0,
          true, false⟩).1 = ⟨⟨2, [], [], false⟩, 8, false, some 0, true,
          false⟩ :=
  ⟨(virtio_rng_cancel_idempotent _).1, (virtio_rng_cancel_idempotent _).2.1,
    (virtio_rng_cancel_idempotent ⟨⟨2, [], [], false⟩, 8, false, some 0,
      true, false⟩).2.2.2 rfl rfl⟩

theorem virtio_rng_provide_buffer_no_empty_queue_panic
    (s : virtio_rng.VirtIORng) (buf : List Nat) :
    virtio_rng.VirtIORng.provide_buffer s buf ≠
      .error virtio_rng.Panic.emptyQueueDeferredCall := by
  unfold virtio_rng.VirtIORng.provide_buffer
    virtio_rng.SplitVirtQueue.provide_buffer_chain
  by_cases h4 : buf.length < 4
  · simp [h4]
  · by_cases hfd : s.virtqueue.freeDescriptors = 0 <;> simp [h4, hfd]

theorem virtio_rng_callback_no_empty_queue_panic (s : virtio_rng.VirtIORng)
    (cl : virtio_rng.RngClient) (buf : List Nat) (n : Nat) :
    virtio_rng.VirtIORng.buffer_chain_callback s cl buf n ≠
      .error virtio_rng.Panic.emptyQueueDeferredCall := by
  unfold virtio_rng.VirtIORng.buffer_chain_callback
  dsimp only
  split
  · simp
  · split
    · simp
    · simp
    · rename_i heq
      intro hcontra
      rw [Except.error.injEq] at hcontra
      subst hcontra
      exact virtio_rng_provide_buffer_no_empty_queue_panic _ _ heq

/-- C8: a deferred call firing with no pending work is fatal — when
`VirtIORng`'s deferred `call` runs and the virtqueue holds no used
descriptor chain, the driver hits
`panic!("VirtIO RNG: deferred call callback with empty queue")`; and under
the precondition that some used descriptor chain is present (the invariant
the source relies on, since the deferred call is only set after observing a
used chain with used-callbacks disabled), that panic branch is
unreachable. -/
theorem virtio_rng_call_empty_queue_panics (s : virtio_rng.VirtIORng)
    (cl : virtio_rng.RngClient) :
    (s.virtqueue.usedChains = [] →
      virtio_rng.VirtIORng.call s cl =
        .error virtio_rng.Panic.emptyQueueDeferredCall) ∧
      (s.virtqueue.usedChains ≠ [] →
        virtio_rng.VirtIORng.call s cl ≠
          .error virtio_rng.Panic.emptyQueueDeferredCall) := by
  constructor
  · intro he
    unfold virtio_rng.VirtIORng.call
      virtio_rng.SplitVirtQueue.pop_used_descriptor_chain
    rw [he]
  · intro hne
    unfold virtio_rng.VirtIORng.call
      virtio_rng.SplitVirtQueue.pop_used_descriptor_chain
    rcases hchains : s.virtqueue.usedChains with _ | ⟨c, rest⟩
    · exact absurd hchains hne
    · exact virtio_rng_callback_no_empty_queue_panic _ cl c.1 c.2

theorem virtio_rng_call_empty_queue_panics_witness :
    virtio_rng.VirtIORng.call ⟨⟨2, [], [], false⟩, 8, true, some 0, true,
          false⟩ (fun _ => virtio_rng.RngCont.Done) =
        .error virtio_rng.Panic.emptyQueueDeferredCall ∧
      virtio_rng.VirtIORng.call ⟨⟨2, [], [([1, 2, 3, 4], 4)], false⟩, 8,
          true, some 0, true, false⟩ (fun _ => virtio_rng.RngCont.Done) ≠
        .error virtio_rng.Panic.emptyQueueDeferredCall :=
  ⟨(virtio_rng_call_empty_queue_panics ⟨⟨2, [], [], false⟩, 8, true, some 0,
      true, false⟩ (fun _ => virtio_rng.RngCont.Done)).1 rfl,
    (virtio_rng_call_empty_queue_panics ⟨⟨2, [], [([1, 2, 3, 4], 4)],
        false⟩, 8, true, some 0, true, false⟩
      (fun _ => virtio_rng.RngCont.Done)).2 (by simp)⟩

/-- C9: `VirtIORng::provide_buffer` is atomic in its error cases and
accounts capacity exactly — a buffer under 4 bytes comes back in an `Err`
with the invalid-value code and the state (hence `buffer_capacity`)
untouched; a buffer the virtqueue cannot accept comes back in an `Err` with
the out-of-memory code and the state untouched; on success the capacity
grows by exactly the buffer length and the `Ok` value is the new
capacity. -/
theorem virtio_rng_provide_buffer_exact (s : virtio_rng.VirtIORng)
    (buf : List Nat) :
    (buf.length < 4 →
      virtio_rng.VirtIORng.provide_buffer s buf =
        .ok (s, .error (buf, ErrorCode.INVAL))) ∧
      (4 ≤ buf.length → s.virtqueue.freeDescriptors = 0 →
        virtio_rng.VirtIORng.provide_buffer s buf =
          .ok (s, .error (buf, ErrorCode.NOMEM))) ∧
      (4 ≤ buf.length → 0 < s.virtqueue.freeDescriptors →
        virtio_rng.VirtIORng.provide_buffer s buf =
          .ok ({ s with
              virtqueue := { s.virtqueue with
                freeDescriptors := s.virtqueue.freeDescriptors - 1
                availChains := s.virtqueue.availChains ++ [buf] }
              buffer_capacity := s.buffer_capacity + buf.length },
            .ok (s.buffer_capacity + buf.length))) := by
  refine ⟨?_, ?_, ?_⟩
  · intro hlt
    unfold virtio_rng.VirtIORng.provide_buffer
    simp [hlt]
  · intro hge hfull
    unfold virtio_rng.VirtIORng.provide_buffer
      virtio_rng.SplitVirtQueue.provide_buffer_chain
    simp [Nat.not_lt_of_le hge, hfull]
  · intro hge hfree
    unfold virtio_rng.VirtIORng.provide_buffer
      virtio_rng.SplitVirtQueue.provide_buffer_chain
    simp [Nat.not_lt_of_le hge, Nat.pos_iff_ne_zero.mp hfree]

theorem virtio_rng_provide_buffer_exact_witness :
    virtio_rng.VirtIORng.provide_buffer ⟨⟨2, [], [], false⟩, 8, false,
          some 0, true, false⟩ [1, 2, 3] =
        .ok (⟨⟨2, [], [], false⟩, 8, false, some 0, true, false⟩,
          .error ([1, 2, 3], ErrorCode.INVAL)) ∧
      virtio_rng.VirtIORng.provide_buffer ⟨⟨0, [], [], false⟩, 8, false,
          some 0, true, false⟩ [1, 2, 3, 4] =
        .ok (⟨⟨0, [], [], false⟩, 8, false, some 0, true, false⟩,
          .error ([1, 2, 3, 4], ErrorCode.NOMEM)) ∧
      virtio_rng.VirtIORng.provide_buffer ⟨⟨2, [], [], false⟩, 8, false,
          some 0, true, false⟩ [1, 2, 3, 4] =
        .ok (⟨⟨1, [[1, 2, 3, 4]], [], false⟩, 12, false, some 0, true,
          false⟩, .ok 12) :=
  ⟨(virtio_rng_provide_buffer_exact ⟨⟨2, [], [], false⟩, 8, false, some 0,
      true, false⟩ [1, 2, 3]).1 (by decide),
    (virtio_rng_provide_buffer_exact ⟨⟨0, [], [], false⟩, 8, false, some 0,
      true, false⟩ [1, 2, 3, 4]).2.1 (by decide) rfl,
    (virtio_rng_provide_buffer_exact ⟨⟨2, [], [], false⟩, 8, false, some 0,
      true, false⟩ [1, 2, 3, 4]).2.2 (by decide) (by decide)⟩

/-- C3: for every deferred-call slot whose pending flag is set, one scan
pass invokes the slot's client exactly once (neither lost nor fired twice
within the pass); and because the pass clears the flag before running the
client — the client's `set` requests land on the already-cleared flags — a
client that re-arms its own handle from inside `call` ends the pass with
its pending flag true again and fires exactly once more on the next scan
pass. -/
theorem deferred_call_once_per_pass_and_rearm {σ : Type}
    (clients : deferred.Clients σ) (n i : Nat) (s : σ) (p : deferred.Flags)
    (hi : i < n) (hp : p i = true)
    (hre : ∀ t, i ∈ (clients i t).2) :
    ((deferred.scanPass clients n s p).2.2).count i = 1 ∧
      (deferred.scanPass clients n s p).2.1 i = true ∧
      ((deferred.scanPass clients n (deferred.scanPass clients n s p).1
          (deferred.scanPass clients n s p).2.1).2.2).count i = 1 := by
  have hcr : (List.range n).count i = 1 :=
    List.count_eq_one_of_mem (List.nodup_range n) (List.mem_range.mpr hi)
  have h1 := deferred.scanGo_fire_once clients (List.range n) i s p hcr hp
  have h2 := deferred.scanGo_rearm_flag clients (List.range n) i s p []
    hre hcr hp
  exact ⟨h1, h2,
    deferred.scanGo_fire_once clients (List.range n) i _ _ hcr h2⟩

theorem deferred_call_once_per_pass_and_rearm_witness :
    ((deferred.scanPass (fun _ _ => ((), [0])) 1 () (fun _ => true)).2.2
        ).count 0 = 1 ∧
      (deferred.scanPass (fun _ _ => ((), [0])) 1 () (fun _ => true)).2.1 0 =
        true ∧
      ((deferred.scanPass (fun _ _ => ((), [0])) 1
          (deferred.scanPass (fun _ _ => ((), [0])) 1 ()
            (fun _ => true)).1
          (deferred.scanPass (fun _ _ => ((), [0])) 1 ()
            (fun _ => true)).2.1).2.2).count 0 = 1 :=
  deferred_call_once_per_pass_and_rearm (fun _ _ => ((), [0])) 1 0 ()
    (fun _ => true) (by decide) rfl (fun _ => by simp)

theorem ble_command0_starts (b : ble.BLE) (app : ble.App)
    (now freq appid : Nat) (halive : b.app.alive = true)
    (hent : b.app.entered = false) (halloc : b.app.allocated = some app)
    (hinit : app.process_status = some ble.AppBLEState.Initialized) :
    ble.BLE.command0 b now freq appid =
      ({ b with app :=
          { b.app with
              entered := false
              allocated := some (ble.App.set_next_alarm
                { app with
                    process_status := some ble.AppBLEState.Advertising
                    channel := some ble.RadioChannel.AdvertisingChannel37
                    random_nonce := now % 4294967296 } freq now) } },
        ReturnCode.SUCCESS) := by
  rcases b with ⟨busy, ⟨al, ma, alo, en⟩, bst, hw⟩
  simp only at halive hent halloc
  subst halive hent halloc
  simp [ble.BLE.command0, Grant.enterApp, Grant.enter, Grant.enterInner,
    ble.BLE.reset_active_alarm, hinit]

theorem ble_command0_rejects (b : ble.BLE) (app : ble.App)
    (now freq appid : Nat) (halive : b.app.alive = true)
    (hent : b.app.entered = false) (halloc : b.app.allocated = some app)
    (hstat : app.process_status ≠ some ble.AppBLEState.Initialized) :
    ble.BLE.command0 b now freq appid = (b, ReturnCode.EBUSY) := by
  rcases b with ⟨busy, ⟨al, ma, alo, en⟩, bst, hw⟩
  simp only at halive hent halloc
  subst halive hent halloc
  simp [ble.BLE.command0, Grant.enterApp, Grant.enter, Grant.enterInner,
    hstat]

theorem ble_set_next_alarm_keeps_status (a : ble.App) (freq now : Nat) :
    (ble.App.set_next_alarm a freq now).process_status =
      a.process_status := rfl

/-- C4: a capsule rejects an operation conflicting with one already in
flight with the busy code, leaving its state machine unchanged — a BLE app
that starts advertising with `command(0)` and issues `command(0)` again
before completion gets `EBUSY` from the second call with the whole driver
state untouched, and a CDC transmit request made while a previous
transmission is still held gets `EBUSY` together with the caller's
buffer, with the CDC state untouched. -/
theorem busy_operations_rejected (b : ble.BLE) (app : ble.App)
    (now freq now' freq' appid : Nat) (halive : b.app.alive = true)
    (hent : b.app.entered = false) (halloc : b.app.allocated = some app)
    (hinit : app.process_status = some ble.AppBLEState.Initialized)
    (c : cdc.Cdc) (buf0 tx : List Nat) (tx_len : Nat)
    (hheld : c.tx_buffer = some buf0) :
    (ble.BLE.command0 b now freq appid).2 = ReturnCode.SUCCESS ∧
      (∃ app1, (ble.BLE.command0 b now freq appid).1.app.allocated =
          some app1 ∧
        app1.process_status = some ble.AppBLEState.Advertising) ∧
      ble.BLE.command0 (ble.BLE.command0 b now freq appid).1 now' freq'
          appid =
        ((ble.BLE.command0 b now freq appid).1, ReturnCode.EBUSY) ∧
      cdc.Cdc.transmit_buffer c tx tx_len =
        (c, ReturnCode.EBUSY, some tx) := by
  have h1 := ble_command0_starts b app now freq appid halive hent halloc
    hinit
  have hkeep := ble_set_next_alarm_keeps_status
    { app with
        process_status := some ble.AppBLEState.Advertising
        channel := some ble.RadioChannel.AdvertisingChannel37
        random_nonce := now % 4294967296 } freq now
  refine ⟨by rw [h1], ?_, ?_, ?_⟩
  · exact ⟨_, by rw [h1], by rw [hkeep]⟩
  · refine ble_command0_rejects _
      (ble.App.set_next_alarm
        { app with
            process_status := some ble.AppBLEState.Advertising
            channel := some ble.RadioChannel.AdvertisingChannel37
            random_nonce := now % 4294967296 } freq now)
      now' freq' appid ?_ ?_ ?_ ?_
    · rw [h1]
      exact halive
    · rw [h1]
    · rw [h1]
    · rw [hkeep]
      simp
  · simp [cdc.Cdc.transmit_buffer, hheld]

/-- A concrete initialized BLE app used to instantiate theorems. -/
def bleAppFixture : ble.App :=
  { ble.App.default 7 with process_status := some ble.AppBLEState.Initialized }

/-- A concrete BLE driver state holding `bleAppFixture`'s grant. -/
def bleFixture : ble.BLE :=
  { busy := ble.BusyState.Free
    app := { alive := true, memAvailable := true,
             allocated := some bleAppFixture, entered := false }
    ble_state := ble.BLEState.Advertising
    hwAlarm := none }

/-- A concrete CDC state with a transmission in flight. -/
def cdcFixture : cdc.Cdc :=
  { tx_buffer := some [9, 9], tx_remaining := 2, tx_len := 2,
    tx_offset := 0, endpointResumed := true }

theorem busy_operations_rejected_witness :
    (ble.BLE.command0 bleFixture 5 32768 7).2 = ReturnCode.SUCCESS ∧
      (∃ app1, (ble.BLE.command0 bleFixture 5 32768 7).1.app.allocated =
          some app1 ∧
        app1.process_status = some ble.AppBLEState.Advertising) ∧
      ble.BLE.command0 (ble.BLE.command0 bleFixture 5 32768 7).1 6 32768 7 =
        ((ble.BLE.command0 bleFixture 5 32768 7).1, ReturnCode.EBUSY) ∧
      cdc.Cdc.transmit_buffer cdcFixture [1, 2, 3] 3 =
        (cdcFixture, ReturnCode.EBUSY, some [1, 2, 3]) :=
  busy_operations_rejected bleFixture bleAppFixture 5 32768 6 32768 7 rfl
    rfl rfl rfl cdcFixture [9, 9] [1, 2, 3] 3 rfl

/-- C10: the BLE driver's `command` number 3 (configure advertisement
interval), whenever it does not fail with busy or a grant error, returns
success and sets the app's `advertisement_interval_ms` to the constant
`280` (the source's `cmp::max(20, cmp::min(10240, 280))`), ignoring the
requested `data` value entirely instead of clamping it into the
20–10240 ms range. -/
theorem ble_command3_forces_280 (b : ble.BLE) (app : ble.App)
    (data data' appid : Nat) (halive : b.app.alive = true)
    (hent : b.app.entered = false) (halloc : b.app.allocated = some app)
    (hnb : ∀ bid, b.busy = ble.BusyState.Busy bid → app.appid ≠ bid) :
    ble.BLE.command3 b data appid =
      ({ b with app :=
          { b.app with
              entered := false
              allocated := some
                { app with advertisement_interval_ms := 280 } } },
        ReturnCode.SUCCESS) ∧
      ble.BLE.command3 b data appid = ble.BLE.command3 b data' appid ∧
      max 20 (min 10240 280) = 280 := by
  refine ⟨?_, rfl, by decide⟩
  rcases b with ⟨busy, ⟨al, ma, alo, en⟩, bst, hw⟩
  simp only at halive hent halloc
  subst halive hent halloc
  cases busy with
  | Free =>
    simp [ble.BLE.command3, Grant.enterApp, Grant.enter, Grant.enterInner]
  | Busy bid =>
    have hne : app.appid ≠ bid := hnb bid rfl
    simp [ble.BLE.command3, Grant.enterApp, Grant.enter, Grant.enterInner,
      hne]

theorem ble_command3_forces_280_witness :
    ble.BLE.command3 bleFixture 500 7 =
      ({ bleFixture with app :=
          { bleFixture.app with
              entered := false
              allocated := some
                { bleAppFixture with
                    advertisement_interval_ms := 280 } } },
        ReturnCode.SUCCESS) ∧
      ble.BLE.command3 bleFixture 500 7 = ble.BLE.command3 bleFixture 9999 7 ∧
      max 20 (min 10240 280) = 280 :=
  ble_command3_forces_280 bleFixture bleAppFixture 500 9999 7 rfl rfl rfl
    (fun bid h => by simp [bleFixture] at h)

